import Mathlib

/-!
Verification of the dnssync domain reconciliation engine.

The definitions below are shallow embeddings of the Python sources:
  - `dnssync_lib/zones.py`    — drift detection (`calculate_soa_drift`,
    `check_zone_sync`) and correction (`fix_soa_drift`),
  - `dnssync_lib/error_handling.py` — `CircuitBreaker`, `retry_with_backoff`,
  - `dnssync_lib/domains.py`  — `process_domain_queue`, `handle_removed_zones`,
  - `dnssync_lib/db_manager.py` — `save_domain_tracking` / `load_domain_tracking`.

Machine-independent conventions: Python `int` is modelled as `Int`;
timestamps (`datetime`) are modelled as integer seconds; Python dicts are
modelled as insertion-ordered association lists (Python ≥3.7 dicts preserve
insertion order).
-/

namespace DnsSync

/-- Model of Python `int(s)` on a string: an optional sign followed by a
nonempty run of decimal digits yields the value, anything else raises
`ValueError` (modelled as `none`).  (Python additionally strips surrounding
whitespace and allows `_` separators; those forms do not occur in this
code base and are not modelled.) -/
def digitsToNat (l : List Char) : Option Nat :=
  if l ≠ [] ∧ l.all Char.isDigit then
    some (l.foldl (fun n c => n * 10 + (c.toNat - ('0').toNat)) 0)
  else none

def pyInt (s : String) : Option Int :=
  match s.toList with
  | '-' :: rest => (digitsToNat rest).map (fun n => -(n : Int))
  | '+' :: rest => (digitsToNat rest).map (fun n => (n : Int))
  | l => (digitsToNat l).map (fun n => (n : Int))

/-- `calculate_soa_drift` (zones.py lines 195-215): absolute difference of the
two serials after `int` conversion; `None` inputs or a failed conversion
(`ValueError`) give `None`. -/
def calculate_soa_drift (bind_serial pdns_serial : Option String) : Option Int :=
  match bind_serial, pdns_serial with
  | some b, some p =>
    match pyInt b, pyInt p with
    | some bi, some pv => some |bi - pv|
    | _, _ => none
  | _, _ => none

/-- The dict returned by `check_zone_sync` (zones.py lines 228-238), without
the wall-clock `last_check` field and the constant `event_type` field. -/
structure SyncResult where
  domain_name : String
  bind_serial : Option String
  pdns_serial : Option String
  soa_drift : Option Int
  sync_status : String
  error_message : Option String
  details : String
deriving DecidableEq, Repr

/-- `check_zone_sync` (zones.py lines 217-277), with the two serial lookups
(`get_bind_serial` / `get_pdns_serial`, which perform DNS I/O) passed in as
`Option String` arguments and the configured `max_soa_drift` (config.py
fallback 5) passed as a parameter. -/
def check_zone_sync (max_soa_drift : Int) (domain_name : String)
    (bind_serial pdns_serial : Option String) : SyncResult :=
  match bind_serial with
  | none =>
    { domain_name, bind_serial := none, pdns_serial := none, soa_drift := none,
      sync_status := "error",
      error_message := some ("Failed to get BIND SOA serial for " ++ domain_name),
      details := "Failed to get BIND SOA serial for " ++ domain_name }
  | some b =>
    match pdns_serial with
    | none =>
      { domain_name, bind_serial := some b, pdns_serial := none, soa_drift := none,
        sync_status := "error",
        error_message := some ("Failed to get PowerDNS SOA serial for " ++ domain_name),
        details := "Failed to get PowerDNS SOA serial for " ++ domain_name }
    | some p =>
      match calculate_soa_drift (some b) (some p) with
      | none =>
        { domain_name, bind_serial := some b, pdns_serial := some p, soa_drift := none,
          sync_status := "error",
          error_message := some "Failed to calculate SOA drift",
          details := "Failed to calculate SOA drift" }
      | some drift =>
        if drift = 0 then
          { domain_name, bind_serial := some b, pdns_serial := some p,
            soa_drift := some drift, sync_status := "success", error_message := none,
            details := "Zone is in sync: BIND SOA " ++ b ++ ", PowerDNS SOA " ++ p }
        else if drift ≤ max_soa_drift then
          { domain_name, bind_serial := some b, pdns_serial := some p,
            soa_drift := some drift, sync_status := "warning",
            error_message := some ("SOA drift detected: " ++ toString drift),
            details := "Zone has SOA drift: BIND SOA " ++ b ++ ", PowerDNS SOA " ++ p
              ++ ", Drift " ++ toString drift }
        else
          { domain_name, bind_serial := some b, pdns_serial := some p,
            soa_drift := some drift, sync_status := "error",
            error_message := some ("Critical SOA drift detected: " ++ toString drift),
            details := "Zone has critical SOA drift: BIND SOA " ++ b ++ ", PowerDNS SOA " ++ p
              ++ ", Drift " ++ toString drift }

/-- The input-validation and new-serial computation of `fix_soa_drift`
(zones.py lines 292-304): `.error msg` models an early `return False, msg`,
`.ok n` models reaching line 304 with `new_serial = n`.  (The remainder of the
function — zone-file lookup and shell commands — is I/O and is not part of the
serial computation.) -/
def fix_soa_drift_serial (domain_name bind_serial pdns_serial : String) :
    Except String Int :=
  if domain_name = "" then .error "Invalid domain name"
  else if bind_serial = "" ∨ pdns_serial = "" then .error "Missing serial numbers"
  else
    match pyInt bind_serial, pyInt pdns_serial with
    | some bi, some pv => .ok (max bi pv + 1)
    | _, _ =>
      .error ("Invalid serial numbers: BIND=" ++ bind_serial ++ ", PDNS=" ++ pdns_serial)

/-! ### Circuit breaker (error_handling.py lines 22-94)

Wall-clock time (`datetime.now()`) is modelled as a `Nat` of seconds passed in
at each call.  Raising `CircuitBreakerError` from `__enter__` is modelled by
`enter` returning `none`. -/

inductive CircuitState where
  | closed
  | opened
  | halfOpen
deriving DecidableEq, Repr

structure CircuitBreaker where
  failure_threshold : Nat
  recovery_timeout : Nat
  state : CircuitState
  failure_count : Nat
  last_failure_time : Option Nat
deriving DecidableEq, Repr

/-- `CircuitBreaker.__init__` (defaults `failure_threshold=5`,
`recovery_timeout=60`). -/
def CircuitBreaker.init (failure_threshold : Nat := 5) (recovery_timeout : Nat := 60) :
    CircuitBreaker :=
  { failure_threshold, recovery_timeout, state := .closed,
    failure_count := 0, last_failure_time := none }

/-- `CircuitBreaker.__enter__` at wall-clock time `now`: `none` models raising
`CircuitBreakerError` (the wrapped block is not executed). -/
def CircuitBreaker.enter (cb : CircuitBreaker) (now : Nat) : Option CircuitBreaker :=
  match cb.state with
  | .opened =>
    match cb.last_failure_time with
    | some t =>
      if now > t + cb.recovery_timeout then some { cb with state := .halfOpen }
      else none
    | none => none
  | _ => some cb

/-- `CircuitBreaker.success`. -/
def CircuitBreaker.success (cb : CircuitBreaker) : CircuitBreaker :=
  let cb := if cb.state = .halfOpen then { cb with state := .closed } else cb
  { cb with failure_count := 0 }

/-- `CircuitBreaker.failure` at wall-clock time `now`. -/
def CircuitBreaker.failure (cb : CircuitBreaker) (now : Nat) : CircuitBreaker :=
  let cb := { cb with failure_count := cb.failure_count + 1,
                      last_failure_time := some now }
  if cb.state = .closed ∧ cb.failure_count ≥ cb.failure_threshold then
    { cb with state := .opened }
  else if cb.state = .halfOpen then
    { cb with state := .opened }
  else cb

inductive CallOutcome where
  | rejected
  | succeeded
  | failed
deriving DecidableEq, Repr

/-- One `with breaker:` block at time `now` around an operation whose own
result is `ok` (`true` = no exception).  `rejected` models
`CircuitBreakerError` raised by `__enter__`, in which case `__exit__` never
runs and the breaker is returned unchanged; otherwise `__exit__` records the
operation's success or failure. -/
def CircuitBreaker.call (cb : CircuitBreaker) (now : Nat) (ok : Bool) :
    CallOutcome × CircuitBreaker :=
  match cb.enter now with
  | none => (.rejected, cb)
  | some cb' => if ok then (.succeeded, cb'.success) else (.failed, cb'.failure now)

/-- The breaker after one more failing call through `CircuitBreaker.call`. -/
def CircuitBreaker.callFail (cb : CircuitBreaker) (now : Nat) : CircuitBreaker :=
  (cb.call now false).2

/-- `PowerDnsApiAdapter.get_zone` (core.py lines 95-109) under
`retry_with_backoff(max_retries=3)` when every attempt's operation fails
(error_handling.py lines 97-132): the retry loop invokes the wrapped function
`max_retries + 1` times before re-raising, and each invocation enters the
circuit breaker anew (core.py line 100).  Backoff sleeps do not affect breaker
bookkeeping, so all attempts are modelled at time `t`. -/
def get_zone_retry_exhausted (max_retries : Nat) (cb : CircuitBreaker) (t : Nat) :
    CircuitBreaker :=
  (List.range (max_retries + 1)).foldl (fun b _ => b.callFail t) cb

/-! ### Domain tracking and queue scheduling (domains.py)

A tracking entry (`{"status": ..., "timestamp": ...}`) is modelled by
`DomainInfo`; `timestamp` is `some t` for a timestamp string that parses with
`datetime.strptime`, `none` for a missing (`None`) or unparseable one — both
map to `datetime.min` in `get_timestamp` and are skipped in
`handle_removed_zones`.  The tracking dict is an insertion-ordered association
list with unique keys (a Python dict). -/

structure DomainInfo where
  status : String
  timestamp : Option Nat
deriving DecidableEq, Repr

/-- `get_timestamp` (domains.py lines 198-205): a missing or unparseable
timestamp sorts as `datetime.min`, modelled as `0`. -/
def get_timestamp (info : DomainInfo) : Nat :=
  info.timestamp.getD 0

/-- Stable insertion of a tracking pair into a list already sorted by
`get_timestamp` ascending; earlier elements of the original list end up before
later elements with an equal key, matching Python's stable `list.sort`. -/
def insertByTs (x : String × DomainInfo) :
    List (String × DomainInfo) → List (String × DomainInfo)
  | [] => [x]
  | y :: ys =>
    if get_timestamp y.2 < get_timestamp x.2 then y :: insertByTs x ys
    else x :: y :: ys

/-- `list.sort(key=get_timestamp)` (domains.py lines 207-209): stable sort,
oldest timestamp first. -/
def sortByTs : List (String × DomainInfo) → List (String × DomainInfo)
  | [] => []
  | x :: xs => insertByTs x (sortByTs xs)

/-- The `new_domains` queue (domains.py lines 188-195): active with no
timestamp. -/
def new_domains (tracking : List (String × DomainInfo)) : List (String × DomainInfo) :=
  tracking.filter (fun p => p.2.status == "active" && p.2.timestamp.isNone)

/-- The `existing_domains` queue: active with a timestamp. -/
def existing_domains (tracking : List (String × DomainInfo)) : List (String × DomainInfo) :=
  tracking.filter (fun p => p.2.status == "active" && p.2.timestamp.isSome)

/-- The `orphan_domains` queue. -/
def orphan_domains (tracking : List (String × DomainInfo)) : List (String × DomainInfo) :=
  tracking.filter (fun p => p.2.status == "orphan")

/-- The per-queue processing loop (domains.py lines 218-224): walk the first
`quota` entries of the queue, skipping the rest of the run once
`total_processed` has reached `max_domains`. -/
def cappedAppend (max_domains : Nat) (acc : List String) (queue : List String) :
    List String :=
  queue.foldl (fun a d => if a.length ≥ max_domains then a else a ++ [d]) acc

/-- The list of domains processed by `process_domain_queue` (domains.py lines
154-285), in processing order: categorize the tracking dict into the three
queues, sort each oldest-first, then take up to `quota[i]` from each in
new → existing → orphan order under the global `max_domains` cap.  The
per-domain work (`check_zone_sync`, drift fixing, tracking update) does not
affect which domains are selected. -/
def process_domain_queue (max_domains : Nat) (distribution : Nat × Nat × Nat)
    (tracking : List (String × DomainInfo)) : List String :=
  let nq := (sortByTs (new_domains tracking)).map Prod.fst
  let eq := (sortByTs (existing_domains tracking)).map Prod.fst
  let oq := (sortByTs (orphan_domains tracking)).map Prod.fst
  cappedAppend max_domains
    (cappedAppend max_domains
      (cappedAppend max_domains [] (nq.take distribution.1))
      (eq.take distribution.2.1))
    (oq.take distribution.2.2)

/-- Eligibility test of `handle_removed_zones` (domains.py lines 129-139): the
domain must appear in the tracking dict with a parseable timestamp strictly
more than 3600 seconds in the past.  `now` and the stored time are integer
seconds; the subtraction is over `Int` as `total_seconds()` may be negative. -/
def removal_eligible (now : Int) (tracking : List (String × DomainInfo))
    (domain : String) : Bool :=
  match List.lookup domain tracking with
  | some info =>
    match info.timestamp with
    | some t => decide (now - (t : Int) > 3600)
    | none => false
  | none => false

/-- `handle_removed_zones` (domains.py lines 114-152).  Returns
`(domains_to_process, tracking', disconnect_calls, saved)`:
the eligible domains, the tracking dict after the run, the domains passed to
`disconnect_zone_from_cpanel`, and whether `save_domain_tracking` was called.
In dry-run mode the disconnect, the deletions and the save are all skipped. -/
def handle_removed_zones (now : Int) (inactive_domains : List String)
    (tracking : List (String × DomainInfo)) (dryrun : Bool) :
    List String × List (String × DomainInfo) × List String × Bool :=
  let domains_to_process := inactive_domains.filter (removal_eligible now tracking)
  if dryrun then
    (domains_to_process, tracking, [], false)
  else
    (domains_to_process,
     tracking.filter (fun p => !(domains_to_process.contains p.1)),
     domains_to_process,
     decide (domains_to_process ≠ []))

/-! ### Database manager (db_manager.py)

A full domain record (the per-domain dict) is an insertion-ordered association
list `Record`; values are modelled as strings (the store serializes them to
TEXT and the core never inspects them).  The `domains` table is a list of
`DomainRow`s in rowid order; `json.dumps`/`json.loads` of the metadata dict is
a bijection on ordered key-value lists (Python ≥3.7 preserves insertion
order), modelled as the identity. -/

abbrev Record := List (String × String)

/-- Python `data.get(key, default)`. -/
def pyDictGet (data : Record) (key default : String) : String :=
  (List.lookup key data).getD default

/-- The metadata extracted at save time (db_manager.py line 136): every field
whose key is neither `status` nor `timestamp`, in dict order. -/
def extFields (data : Record) : Record :=
  data.filter (fun p => !(p.1 == "status") && !(p.1 == "timestamp"))

/-- One row of the `domains` table. -/
structure DomainRow where
  domain : String
  status : String
  timestamp : String
  metadata : Option Record
deriving DecidableEq, Repr

/-- The row built for one tracking entry by `save_domain_tracking`
(db_manager.py lines 130-137); `nowStr` is the `datetime.now()` default for a
missing timestamp, and an empty metadata dict is stored as NULL
(`metadata_json = None`). -/
def saveRow (nowStr : String) (domain : String) (data : Record) : DomainRow :=
  { domain,
    status := pyDictGet data "status" "unknown",
    timestamp := pyDictGet data "timestamp" nowStr,
    metadata := if extFields data = [] then none else some (extFields data) }

/-- The `INSERT ... ON CONFLICT(domain) DO UPDATE` upsert (db_manager.py lines
140-150): replace the existing row in place, else append. -/
def upsertRow (db : List DomainRow) (r : DomainRow) : List DomainRow :=
  if db.any (fun q => q.domain == r.domain) then
    db.map (fun q => if q.domain == r.domain then r else q)
  else db ++ [r]

/-- `DatabaseManager.save_domain_tracking` (db_manager.py lines 122-163) on
the success path: upsert one row per tracking entry, in dict order, in one
transaction. -/
def save_domain_tracking (nowStr : String) (db : List DomainRow)
    (tracking : List (String × Record)) : List DomainRow :=
  tracking.foldl (fun acc p => upsertRow acc (saveRow nowStr p.1 p.2)) db

/-- The record rebuilt by `load_domain_tracking` from one row (db_manager.py
lines 100-114): `status` and `timestamp` first, then the metadata pairs in
stored order. -/
def loadRecord (r : DomainRow) : Record :=
  [("status", r.status), ("timestamp", r.timestamp)] ++ r.metadata.getD []

/-- `DatabaseManager.load_domain_tracking` (db_manager.py lines 92-120) on the
success path. -/
def load_domain_tracking (db : List DomainRow) : List (String × Record) :=
  db.map (fun r => (r.domain, loadRecord r))

/-! ## Theorems -/

deriving instance DecidableEq for Except

/-- Auxiliary: `pyInt` never succeeds on the empty string. -/
theorem pyInt_empty_eq_none : pyInt "" = none := by
  simp [pyInt, digitsToNat]

/-- C1: for a domain for which both serials are obtained and parse as
integers, `check_zone_sync` computes drift as the absolute difference of the
serials and classifies it — `drift = 0` gives `success`, `0 < drift ≤
max_soa_drift` gives `warning`, `drift > max_soa_drift` gives `error` — and
the result carries both raw serials and the branch-specific detail string. -/
theorem check_zone_sync_drift_classification (maxDrift : Int) (d sa sb : String)
    (a b : Int) (hm : 0 ≤ maxDrift)
    (ha : pyInt sa = some a) (hb : pyInt sb = some b) :
    (check_zone_sync maxDrift d (some sa) (some sb)).bind_serial = some sa ∧
    (check_zone_sync maxDrift d (some sa) (some sb)).pdns_serial = some sb ∧
    (check_zone_sync maxDrift d (some sa) (some sb)).soa_drift = some |a - b| ∧
    (|a - b| = 0 →
      (check_zone_sync maxDrift d (some sa) (some sb)).sync_status = "success" ∧
      (check_zone_sync maxDrift d (some sa) (some sb)).details =
        "Zone is in sync: BIND SOA " ++ sa ++ ", PowerDNS SOA " ++ sb) ∧
    (0 < |a - b| → |a - b| ≤ maxDrift →
      (check_zone_sync maxDrift d (some sa) (some sb)).sync_status = "warning" ∧
      (check_zone_sync maxDrift d (some sa) (some sb)).details =
        "Zone has SOA drift: BIND SOA " ++ sa ++ ", PowerDNS SOA " ++ sb
          ++ ", Drift " ++ toString |a - b|) ∧
    (maxDrift < |a - b| →
      (check_zone_sync maxDrift d (some sa) (some sb)).sync_status = "error" ∧
      (check_zone_sync maxDrift d (some sa) (some sb)).details =
        "Zone has critical SOA drift: BIND SOA " ++ sa ++ ", PowerDNS SOA " ++ sb
          ++ ", Drift " ++ toString |a - b|) := by
  have hd : calculate_soa_drift (some sa) (some sb) = some |a - b| := by
    simp [calculate_soa_drift, ha, hb]
  simp only [check_zone_sync, hd]
  split_ifs with h0 hle
  · refine ⟨rfl, rfl, rfl, fun _ => ⟨rfl, rfl⟩,
      fun hpos _ => absurd h0 (ne_of_gt hpos), fun hgt => ?_⟩
    rw [h0] at hgt
    exact absurd hgt (not_lt.mpr hm)
  · refine ⟨rfl, rfl, rfl, fun h => absurd h h0, fun _ _ => ⟨rfl, rfl⟩, fun hgt => ?_⟩
    exact absurd hgt (not_lt.mpr hle)
  · refine ⟨rfl, rfl, rfl, fun h => absurd h h0, fun _ hle2 => absurd hle2 hle,
      fun _ => ⟨rfl, rfl⟩⟩

/-- Witness for C1 at concrete inputs: serials 100 and 103 with the default
threshold 5 give drift 3 and the warning outcome. -/
theorem check_zone_sync_drift_classification_witness :
    (check_zone_sync 5 "example.com" (some "100") (some "103")).sync_status = "warning" ∧
    (check_zone_sync 5 "example.com" (some "100") (some "103")).soa_drift = some 3 := by
  have h := check_zone_sync_drift_classification 5 "example.com" "100" "103" 100 103
    (by decide) (by decide) (by decide)
  refine ⟨(h.2.2.2.2.1 (by decide) (by decide)).1, h.2.2.1.trans (by decide)⟩

/-- C2: for valid integer serials, `fix_soa_drift` computes the new serial as
`max(localSerial, remoteSerial) + 1`, which is strictly greater than both
inputs and independent of argument order. -/
theorem fix_soa_drift_new_serial (d bs ps : String) (a b : Int)
    (hd : d ≠ "") (ha : pyInt bs = some a) (hb : pyInt ps = some b) :
    fix_soa_drift_serial d bs ps = .ok (max a b + 1) ∧
    fix_soa_drift_serial d ps bs = .ok (max a b + 1) ∧
    a < max a b + 1 ∧ b < max a b + 1 := by
  have hbs : bs ≠ "" := by
    intro h; rw [h, pyInt_empty_eq_none] at ha; cases ha
  have hps : ps ≠ "" := by
    intro h; rw [h, pyInt_empty_eq_none] at hb; cases hb
  refine ⟨?_, ?_, ?_, ?_⟩
  · simp [fix_soa_drift_serial, hd, hbs, hps, ha, hb]
  · simp [fix_soa_drift_serial, hd, hbs, hps, ha, hb, max_comm b a]
  · exact lt_of_le_of_lt (le_max_left a b) (lt_add_one _)
  · exact lt_of_le_of_lt (le_max_right a b) (lt_add_one _)

/-- Witness for C2: correcting with serials 100 and 95 yields 101 in either
argument order. -/
theorem fix_soa_drift_new_serial_witness :
    fix_soa_drift_serial "example.com" "100" "95" = .ok 101 ∧
    fix_soa_drift_serial "example.com" "95" "100" = .ok 101 := by
  have h := fix_soa_drift_new_serial "example.com" "100" "95" 100 95
    (by decide) (by decide) (by decide)
  exact ⟨h.1.trans (by decide), h.2.1.trans (by decide)⟩

/-- C7 counterexample: `"-5"` is not a non-negative integer, yet
`fix_soa_drift` accepts it and computes a new serial (`int()` parses signed
integers, and the code never checks the sign); nor does any typed
`InvalidInputError` exist — validation failures are `(False, message)`
returns. -/
theorem fix_soa_drift_negative_serial_accepted :
    pyInt "-5" = some (-5) ∧ (-5 : Int) < 0 ∧
    fix_soa_drift_serial "example.com" "-5" "10" = .ok 11 := by
  refine ⟨by decide, by decide, by decide⟩

/-- C7 (amended): `fix_soa_drift` fails — by returning `(False, message)`,
not by raising a typed error — exactly when the domain is empty, a serial is
missing (empty/falsy), or a serial does not parse as an integer; any
parseable integer serial, negative ones included, is accepted. -/
theorem fix_soa_drift_validation (d bs ps : String) :
    (∃ msg, fix_soa_drift_serial d bs ps = .error msg) ↔
      (d = "" ∨ bs = "" ∨ ps = "" ∨ pyInt bs = none ∨ pyInt ps = none) := by
  unfold fix_soa_drift_serial
  split_ifs with h1 h2
  · simp [h1]
  · rcases h2 with h2 | h2 <;> simp [h1, h2]
  · push_neg at h2
    rcases hpb : pyInt bs with _ | a <;> rcases hpp : pyInt ps with _ | b <;>
      simp [h1, h2.1, h2.2, hpb, hpp]

/-- Witness for C7 (amended): an unparseable serial makes the corrector fail,
and valid serials make the failure characterization's right side false. -/
theorem fix_soa_drift_validation_witness :
    (∃ msg, fix_soa_drift_serial "example.com" "abc" "10" = .error msg) ∧
    ¬ (∃ msg, fix_soa_drift_serial "example.com" "7" "10" = .error msg) := by
  constructor
  · exact (fix_soa_drift_validation "example.com" "abc" "10").mpr (by
      refine Or.inr (Or.inr (Or.inr (Or.inl ?_)))
      decide)
  · intro h
    have := (fix_soa_drift_validation "example.com" "7" "10").mp h
    revert this
    decide

/-- The breaker obtained from a fresh default breaker (threshold 5, recovery
timeout 60) by five consecutive failing calls at times `t1 ≤ … ≤ t5`. -/
def breakerAfterFiveFailures (t1 t2 t3 t4 t5 : Nat) : CircuitBreaker :=
  ((((CircuitBreaker.init.callFail t1).callFail t2).callFail t3).callFail t4).callFail t5

/-- Auxiliary: `CircuitBreaker.failure` always increments the failure count by
exactly one (the state adjustment never touches the counter). -/
theorem failure_count_failure (cb : CircuitBreaker) (now : Nat) :
    (cb.failure now).failure_count = cb.failure_count + 1 := by
  unfold CircuitBreaker.failure
  dsimp only
  split_ifs <;> rfl

/-- C3: circuit breaker lifecycle.  From a fresh default breaker, five
consecutive failures open the circuit; while `now ≤ lastFailure + 60` every
call is rejected (`CircuitBreakerError`, the wrapped operation is not run) and
the breaker is unchanged; once `now > lastFailure + 60` the next call runs as
a half-open trial — success closes the circuit (and later calls pass through),
failure re-opens it — and any successful call resets the failure counter to
zero whatever the state was. -/
theorem circuit_breaker_lifecycle (t1 t2 t3 t4 t5 now now2 : Nat) :
    (breakerAfterFiveFailures t1 t2 t3 t4 t5).state = .opened ∧
    (breakerAfterFiveFailures t1 t2 t3 t4 t5).failure_count = 5 ∧
    (breakerAfterFiveFailures t1 t2 t3 t4 t5).last_failure_time = some t5 ∧
    (∀ ok, now ≤ t5 + 60 →
      (breakerAfterFiveFailures t1 t2 t3 t4 t5).call now ok =
        (.rejected, breakerAfterFiveFailures t1 t2 t3 t4 t5)) ∧
    (now > t5 + 60 →
      ((breakerAfterFiveFailures t1 t2 t3 t4 t5).call now true).1 = .succeeded ∧
      ((breakerAfterFiveFailures t1 t2 t3 t4 t5).call now true).2.state = .closed ∧
      (((breakerAfterFiveFailures t1 t2 t3 t4 t5).call now true).2.call now2 true).1 =
        .succeeded) ∧
    (now > t5 + 60 →
      ((breakerAfterFiveFailures t1 t2 t3 t4 t5).call now false).2.state = .opened) ∧
    (∀ (cb : CircuitBreaker) (tm : Nat),
      (cb.call tm true).1 ≠ .rejected → ((cb.call tm true).2).failure_count = 0) := by
  have hcb : breakerAfterFiveFailures t1 t2 t3 t4 t5 =
      { failure_threshold := 5, recovery_timeout := 60, state := .opened,
        failure_count := 5, last_failure_time := some t5 } := rfl
  refine ⟨by rw [hcb], by rw [hcb], by rw [hcb], ?_, ?_, ?_, ?_⟩
  · intro ok hle
    have hnot : ¬ now > t5 + 60 := not_lt.mpr hle
    rw [hcb]
    simp [CircuitBreaker.call, CircuitBreaker.enter, hnot]
  · intro hgt
    rw [hcb]
    refine ⟨?_, ?_, ?_⟩ <;>
      simp [CircuitBreaker.call, CircuitBreaker.enter, CircuitBreaker.success, hgt]
  · intro hgt
    rw [hcb]
    simp [CircuitBreaker.call, CircuitBreaker.enter, CircuitBreaker.failure, hgt]
  · intro cb tm hne
    unfold CircuitBreaker.call at hne ⊢
    cases henter : cb.enter tm with
    | none => rw [henter] at hne; simp at hne
    | some cb' => simp [CircuitBreaker.success]

/-- Witness for C3 with failures at times 10..14: the call at time 30 is
rejected with the breaker untouched, the trial at time 75 closes the circuit,
and a failing trial at time 75 re-opens it. -/
theorem circuit_breaker_lifecycle_witness :
    (breakerAfterFiveFailures 10 11 12 13 14).state = .opened ∧
    (breakerAfterFiveFailures 10 11 12 13 14).call 30 true =
      (.rejected, breakerAfterFiveFailures 10 11 12 13 14) ∧
    ((breakerAfterFiveFailures 10 11 12 13 14).call 75 true).2.state = .closed ∧
    ((breakerAfterFiveFailures 10 11 12 13 14).call 75 false).2.state = .opened := by
  have h1 := circuit_breaker_lifecycle 10 11 12 13 14 30 76
  have h2 := circuit_breaker_lifecycle 10 11 12 13 14 75 76
  exact ⟨h1.1, h1.2.2.2.1 true (by decide), (h2.2.2.2.2.1 (by decide)).2.1,
    h2.2.2.2.2.2.1 (by decide)⟩

/-- C9: a call rejected because the circuit is open and the recovery deadline
has not passed leaves the breaker exactly as it was — the rejection is raised
in `__enter__`, so `__exit__` never records anything and neither the failure
count, the last-failure time nor the state changes. -/
theorem circuit_open_rejection_preserves_state (cb : CircuitBreaker) (now : Nat)
    (ok : Bool) (hopen : cb.state = .opened)
    (hto : ∀ t, cb.last_failure_time = some t → now ≤ t + cb.recovery_timeout) :
    cb.call now ok = (.rejected, cb) := by
  unfold CircuitBreaker.call CircuitBreaker.enter
  rw [hopen]
  cases hlft : cb.last_failure_time with
  | none => rfl
  | some t =>
    have hnot : ¬ now > t + cb.recovery_timeout := not_lt.mpr (hto t hlft)
    simp [hnot]

/-- Witness for C9: a rejected call on an open breaker 30 seconds after its
last failure returns the breaker unchanged. -/
theorem circuit_open_rejection_preserves_state_witness :
    CircuitBreaker.call
      { failure_threshold := 5, recovery_timeout := 60, state := .opened,
        failure_count := 5, last_failure_time := some 14 } 30 true =
      (.rejected,
       { failure_threshold := 5, recovery_timeout := 60, state := .opened,
         failure_count := 5, last_failure_time := some 14 }) := by
  exact circuit_open_rejection_preserves_state _ 30 true rfl
    (by intro t ht; cases ht; decide)

/-- C4 counterexample: `get_zone` enters the circuit breaker inside the
retried function, so a single fully-retried-then-failed call (default 3
retries, hence 4 attempts) raises the breaker's failure counter from 0 to 4,
not by exactly 1 as claimed. -/
theorem get_zone_retry_failure_count_counterexample :
    (get_zone_retry_exhausted 3 (CircuitBreaker.init 5 60) 0).failure_count = 4 ∧
    (CircuitBreaker.init 5 60).failure_count + 1 ≠ 4 := by decide

/-- C4 (amended): a fully-retried-then-failed `get_zone` call surfaces one
circuit-breaker failure per attempt — with the default budget of 3 retries it
records `max_retries + 1 = 4` failures on a fresh breaker (which stays closed,
4 being below the threshold 5) — and in general every non-rejected failing
attempt increments the counter by exactly one. -/
theorem get_zone_retry_failure_count (t : Nat) :
    (get_zone_retry_exhausted 3 (CircuitBreaker.init 5 60) t).failure_count =
      (CircuitBreaker.init 5 60).failure_count + 4 ∧
    (get_zone_retry_exhausted 3 (CircuitBreaker.init 5 60) t).state = .closed ∧
    (∀ (cb : CircuitBreaker) (tm : Nat), cb.state = .closed →
      (cb.callFail tm).failure_count = cb.failure_count + 1) := by
  refine ⟨rfl, rfl, ?_⟩
  intro cb tm hclosed
  unfold CircuitBreaker.callFail CircuitBreaker.call CircuitBreaker.enter
  rw [hclosed]
  exact failure_count_failure cb tm

/-- Witness for C4 (amended) at time 0 and a fresh breaker. -/
theorem get_zone_retry_failure_count_witness :
    (get_zone_retry_exhausted 3 (CircuitBreaker.init 5 60) 0).failure_count = 4 ∧
    ((CircuitBreaker.init 5 60).callFail 0).failure_count = 1 := by
  have h := get_zone_retry_failure_count 0
  exact ⟨h.1, h.2.2 (CircuitBreaker.init 5 60) 0 rfl⟩

/-! ### Scheduler lemmas -/

/-- Auxiliary: membership through `insertByTs`. -/
theorem mem_insertByTs (a x : String × DomainInfo) :
    ∀ l, a ∈ insertByTs x l ↔ a = x ∨ a ∈ l := by
  intro l
  induction l with
  | nil => simp [insertByTs]
  | cons y ys ih =>
    unfold insertByTs
    split_ifs <;> simp [ih] <;> tauto

/-- Auxiliary: `sortByTs` permutes membership only. -/
theorem mem_sortByTs (a : String × DomainInfo) :
    ∀ l, a ∈ sortByTs l ↔ a ∈ l := by
  intro l
  induction l with
  | nil => simp [sortByTs]
  | cons x xs ih => simp [sortByTs, mem_insertByTs, ih]

/-- Auxiliary: inserting into a timestamp-sorted list keeps it sorted. -/
theorem insertByTs_sorted (x : String × DomainInfo) :
    ∀ l, l.Sorted (fun p q => get_timestamp p.2 ≤ get_timestamp q.2) →
      (insertByTs x l).Sorted (fun p q => get_timestamp p.2 ≤ get_timestamp q.2) := by
  intro l
  induction l with
  | nil => intro _; simp [insertByTs]
  | cons y ys ih =>
    intro h
    rw [List.sorted_cons] at h
    unfold insertByTs
    split_ifs with hlt
    · rw [List.sorted_cons]
      refine ⟨fun b hb => ?_, ih h.2⟩
      rcases (mem_insertByTs b x ys).mp hb with rfl | hb'
      · exact le_of_lt hlt
      · exact h.1 b hb'
    · rw [List.sorted_cons]
      refine ⟨fun b hb => ?_, by rw [List.sorted_cons]; exact h⟩
      rcases List.mem_cons.mp hb with rfl | hb'
      · exact not_lt.mp hlt
      · exact le_trans (not_lt.mp hlt) (h.1 b hb')

/-- Auxiliary: `sortByTs` sorts by `get_timestamp`, oldest first. -/
theorem sortByTs_sorted (l : List (String × DomainInfo)) :
    (sortByTs l).Sorted (fun p q => get_timestamp p.2 ≤ get_timestamp q.2) := by
  induction l with
  | nil => simp [sortByTs]
  | cons x xs ih => exact insertByTs_sorted x _ ih

/-- Auxiliary: the per-queue loop appends the queue's entries to the
accumulator, truncated at the global cap. -/
theorem cappedAppend_eq (m : Nat) :
    ∀ (l acc : List String), acc.length ≤ m →
      cappedAppend m acc l = acc ++ l.take (m - acc.length) := by
  intro l
  induction l with
  | nil => intro acc _; simp [cappedAppend]
  | cons d tl ih =>
    intro acc h
    unfold cappedAppend at ih ⊢
    simp only [List.foldl_cons]
    by_cases hlen : acc.length ≥ m
    · have hm : acc.length = m := le_antisymm h hlen
      rw [if_pos hlen, ih acc h, hm]
      simp
    · rw [if_neg hlen]
      have hlt : acc.length < m := not_le.mp hlen
      have h2 : (acc ++ [d]).length ≤ m := by
        simp only [List.length_append, List.length_singleton]
        omega
      rw [ih (acc ++ [d]) h2]
      obtain ⟨k, hk⟩ : ∃ k, m - acc.length = k + 1 :=
        ⟨m - acc.length - 1, by omega⟩
      have hk2 : m - (acc ++ [d]).length = k := by
        simp only [List.length_append, List.length_singleton]
        omega
      rw [hk, hk2, List.take_succ_cons]
      simp

/-- Auxiliary: `process_domain_queue` selects the global-cap truncation of the
per-queue quota selections, taken from the sorted queues in
new → existing → orphan order. -/
theorem process_domain_queue_take (m d0 d1 d2 : Nat)
    (tracking : List (String × DomainInfo)) :
    process_domain_queue m (d0, d1, d2) tracking =
      (((sortByTs (new_domains tracking)).map Prod.fst).take d0 ++
       ((sortByTs (existing_domains tracking)).map Prod.fst).take d1 ++
       ((sortByTs (orphan_domains tracking)).map Prod.fst).take d2).take m := by
  unfold process_domain_queue
  dsimp only
  set A := ((sortByTs (new_domains tracking)).map Prod.fst).take d0 with hA
  set B := ((sortByTs (existing_domains tracking)).map Prod.fst).take d1 with hB
  set C := ((sortByTs (orphan_domains tracking)).map Prod.fst).take d2 with hC
  have h1 : cappedAppend m [] A = A.take m := by
    simpa using cappedAppend_eq m A [] (by simp)
  have hlen1 : (A.take m).length ≤ m := by
    simpa using List.length_take_le m A
  have h2 : cappedAppend m (A.take m) B =
      A.take m ++ B.take (m - (A.take m).length) :=
    cappedAppend_eq m B (A.take m) hlen1
  have hlen2 : (A.take m ++ B.take (m - (A.take m).length)).length ≤ m := by
    simp only [List.length_append, List.length_take]
    omega
  have h3 : cappedAppend m (A.take m ++ B.take (m - (A.take m).length)) C =
      (A.take m ++ B.take (m - (A.take m).length)) ++
        C.take (m - (A.take m ++ B.take (m - (A.take m).length)).length) :=
    cappedAppend_eq m C _ hlen2
  rw [h1, h2, h3]
  rw [List.take_append_eq_append_take, List.take_append_eq_append_take]
  have e1 : m - (A.take m).length = m - A.length := by
    simp only [List.length_take]
    omega
  rw [e1]
  have e2 : m - (A.take m ++ B.take (m - A.length)).length = m - (A ++ B).length := by
    simp only [List.length_append, List.length_take]
    omega
  rw [e2]

/-- A concrete tracking state with 10 new (active, no timestamp), 10 existing
(active, timestamped) and 10 orphan domains, the timestamped ones listed out
of order. -/
def tracking30 : List (String × DomainInfo) :=
  [("n1", ⟨"active", none⟩), ("n2", ⟨"active", none⟩), ("n3", ⟨"active", none⟩),
   ("n4", ⟨"active", none⟩), ("n5", ⟨"active", none⟩), ("n6", ⟨"active", none⟩),
   ("n7", ⟨"active", none⟩), ("n8", ⟨"active", none⟩), ("n9", ⟨"active", none⟩),
   ("n10", ⟨"active", none⟩),
   ("e1", ⟨"active", some 207⟩), ("e2", ⟨"active", some 201⟩),
   ("e3", ⟨"active", some 209⟩), ("e4", ⟨"active", some 203⟩),
   ("e5", ⟨"active", some 210⟩), ("e6", ⟨"active", some 202⟩),
   ("e7", ⟨"active", some 208⟩), ("e8", ⟨"active", some 204⟩),
   ("e9", ⟨"active", some 206⟩), ("e10", ⟨"active", some 205⟩),
   ("o1", ⟨"orphan", some 305⟩), ("o2", ⟨"orphan", some 301⟩),
   ("o3", ⟨"orphan", some 309⟩), ("o4", ⟨"orphan", some 304⟩),
   ("o5", ⟨"orphan", some 302⟩), ("o6", ⟨"orphan", some 308⟩),
   ("o7", ⟨"orphan", some 303⟩), ("o8", ⟨"orphan", some 310⟩),
   ("o9", ⟨"orphan", some 307⟩), ("o10", ⟨"orphan", some 306⟩)]

/-- C5: `process_domain_queue` partitions the tracking state into the new,
existing and orphan queues, sorts each by `get_timestamp` oldest first (the
sort being what `sortByTs` computes, proved sorted below), and processes the
first `quota[i]` of each queue in new → existing → orphan order truncated
globally at `max_domains`; with 10 domains per queue, distribution (4,4,2)
and `max_domains = 10`, exactly the 4 oldest new, 4 oldest existing and 2
oldest orphan domains are processed. -/
theorem process_domain_queue_fairness :
    (∀ (tracking : List (String × DomainInfo)) (m d0 d1 d2 : Nat),
      process_domain_queue m (d0, d1, d2) tracking =
        (((sortByTs (new_domains tracking)).map Prod.fst).take d0 ++
         ((sortByTs (existing_domains tracking)).map Prod.fst).take d1 ++
         ((sortByTs (orphan_domains tracking)).map Prod.fst).take d2).take m) ∧
    (∀ l : List (String × DomainInfo),
      (sortByTs l).Sorted (fun p q => get_timestamp p.2 ≤ get_timestamp q.2)) ∧
    process_domain_queue 10 (4, 4, 2) tracking30 =
      ["n1", "n2", "n3", "n4", "e2", "e6", "e4", "e8", "o2", "o5"] := by
  refine ⟨fun tracking m d0 d1 d2 => process_domain_queue_take m d0 d1 d2 tracking,
    sortByTs_sorted, by decide⟩

/-- Witness for C5: the concrete (10,10,10) / (4,4,2) / cap-10 instance. -/
theorem process_domain_queue_fairness_witness :
    process_domain_queue 10 (4, 4, 2) tracking30 =
      ["n1", "n2", "n3", "n4", "e2", "e6", "e4", "e8", "o2", "o5"] :=
  process_domain_queue_fairness.2.2

/-- C10: quotas are never redistributed — `process_domain_queue` processes at
most `quota[i]` domains from queue i even when other queues are empty and
global capacity remains, so the total processed is at most
`min maxDomains (d0 + d1 + d2)`.  The processed list splits into three
segments, one per queue, each within its own quota and drawn from its own
queue. -/
theorem process_domain_queue_quota (tracking : List (String × DomainInfo))
    (m d0 d1 d2 : Nat) :
    (process_domain_queue m (d0, d1, d2) tracking).length ≤ min m (d0 + d1 + d2) ∧
    ∃ s0 s1 s2,
      process_domain_queue m (d0, d1, d2) tracking = s0 ++ s1 ++ s2 ∧
      s0.length ≤ d0 ∧ s1.length ≤ d1 ∧ s2.length ≤ d2 ∧
      (∀ x ∈ s0, x ∈ (new_domains tracking).map Prod.fst) ∧
      (∀ x ∈ s1, x ∈ (existing_domains tracking).map Prod.fst) ∧
      (∀ x ∈ s2, x ∈ (orphan_domains tracking).map Prod.fst) := by
  have hmem : ∀ (l : List (String × DomainInfo)) (n k : Nat) (x : String),
      x ∈ (((sortByTs l).map Prod.fst).take n).take k → x ∈ l.map Prod.fst := by
    intro l n k x hx
    have hx1 : x ∈ (sortByTs l).map Prod.fst :=
      List.take_subset _ _ (List.take_subset _ _ hx)
    obtain ⟨p, hp, hpx⟩ := List.mem_map.mp hx1
    exact List.mem_map.mpr ⟨p, (mem_sortByTs p l).mp hp, hpx⟩
  have hdec := process_domain_queue_take m d0 d1 d2 tracking
  set A := ((sortByTs (new_domains tracking)).map Prod.fst).take d0 with hA
  set B := ((sortByTs (existing_domains tracking)).map Prod.fst).take d1 with hB
  set C := ((sortByTs (orphan_domains tracking)).map Prod.fst).take d2 with hC
  constructor
  · rw [hdec]
    have h1 : ((A ++ B ++ C).take m).length ≤ m := by
      simpa using List.length_take_le m (A ++ B ++ C)
    have h2 : ((A ++ B ++ C).take m).length ≤ (A ++ B ++ C).length :=
      List.length_take_le' _ _
    have h3 : (A ++ B ++ C).length ≤ d0 + d1 + d2 := by
      simp only [List.length_append, hA, hB, hC, List.length_take]
      omega
    exact le_min h1 (le_trans h2 h3)
  · refine ⟨A.take m, B.take (m - A.length), C.take (m - (A ++ B).length),
      ?_, ?_, ?_, ?_, ?_, ?_, ?_⟩
    · rw [hdec, List.take_append_eq_append_take, List.take_append_eq_append_take,
        List.length_append]
    · calc (A.take m).length ≤ A.length := List.length_take_le' _ _
        _ ≤ d0 := by rw [hA]; simpa using List.length_take_le d0 _
    · calc (B.take (m - A.length)).length ≤ B.length := List.length_take_le' _ _
        _ ≤ d1 := by rw [hB]; simpa using List.length_take_le d1 _
    · calc (C.take (m - (A ++ B).length)).length ≤ C.length := List.length_take_le' _ _
        _ ≤ d2 := by rw [hC]; simpa using List.length_take_le d2 _
    · intro x hx; exact hmem _ d0 m x (by rwa [hA] at hx)
    · intro x hx; exact hmem _ d1 (m - A.length) x (by rwa [hB] at hx)
    · intro x hx; exact hmem _ d2 (m - (A ++ B).length) x (by rwa [hC] at hx)

/-- Witness for C10 at a concrete tracking state: with all three queues of
size 10, distribution (4,4,2) and cap 10, at most `min 10 (4 + 4 + 2)`
domains are processed. -/
theorem process_domain_queue_quota_witness :
    (process_domain_queue 10 (4, 4, 2) tracking30).length ≤ min 10 (4 + 4 + 2) :=
  (process_domain_queue_quota tracking30 10 4 4 2).1

/-- C6: a tracked Inactive domain is eligible for removal exactly when
`now - lastTransition` strictly exceeds 3600 seconds — at 59 minutes (3540 s)
it is not removed, at 61 minutes (3660 s) it is; every domain actually
processed is deprovisioned and its tracking record deleted; and in dry-run
mode the deprovision calls, the tracking deletions and the store save are all
skipped. -/
theorem handle_removed_zones_grace_period :
    (∀ (now : Int) (tr : List (String × DomainInfo)) (d : String)
        (info : DomainInfo) (t : Nat),
      List.lookup d tr = some info → info.timestamp = some t →
      (removal_eligible now tr d = true ↔ now - (t : Int) > 3600)) ∧
    (∀ (now : Int) (inactive : List String) (tr : List (String × DomainInfo))
        (d : String),
      d ∈ (handle_removed_zones now inactive tr false).2.2.1 ↔
        d ∈ inactive ∧ removal_eligible now tr d = true) ∧
    (∀ (now : Int) (inactive : List String) (tr : List (String × DomainInfo))
        (d : String),
      d ∈ (handle_removed_zones now inactive tr false).1 →
        d ∉ ((handle_removed_zones now inactive tr false).2.1.map Prod.fst)) ∧
    (∀ (now : Int) (inactive : List String) (tr : List (String × DomainInfo)),
      (handle_removed_zones now inactive tr true).2.1 = tr ∧
      (handle_removed_zones now inactive tr true).2.2.1 = [] ∧
      (handle_removed_zones now inactive tr true).2.2.2 = false) ∧
    removal_eligible 10000 [("d59", ⟨"inactive", some 6460⟩)] "d59" = false ∧
    removal_eligible 10000 [("d61", ⟨"inactive", some 6340⟩)] "d61" = true := by
  refine ⟨?_, ?_, ?_, fun _ _ _ => ⟨rfl, rfl, rfl⟩, by decide, by decide⟩
  · intro now tr d info t hlk ht
    simp [removal_eligible, hlk, ht]
  · intro now inactive tr d
    unfold handle_removed_zones
    simp [List.mem_filter]
  · intro now inactive tr d hd hmem
    have hd' : d ∈ inactive.filter (removal_eligible now tr) := by
      simpa [handle_removed_zones] using hd
    have hmem' : ∃ p ∈ tr.filter
        (fun p => !((inactive.filter (removal_eligible now tr)).contains p.1)),
        p.1 = d := by
      simpa [handle_removed_zones, List.mem_map] using hmem
    obtain ⟨p, hp, hpd⟩ := hmem'
    have hf := (List.mem_filter.mp hp).2
    rw [hpd, Bool.not_eq_true'] at hf
    have htrue := List.elem_eq_true_of_mem hd'
    unfold List.contains at hf
    rw [htrue] at hf
    cases hf

/-- Witness for C6: at 61 minutes the eligibility characterization applies
with a concrete lookup, and a dry run leaves the concrete tracking intact. -/
theorem handle_removed_zones_grace_period_witness :
    removal_eligible 10000 [("d61", ⟨"inactive", some 6340⟩)] "d61" = true ∧
    (handle_removed_zones 10000 ["d61"] [("d61", ⟨"inactive", some 6340⟩)] true).2.1 =
      [("d61", ⟨"inactive", some 6340⟩)] := by
  have h := handle_removed_zones_grace_period
  refine ⟨(h.1 10000 [("d61", ⟨"inactive", some 6340⟩)] "d61"
    ⟨"inactive", some 6340⟩ 6340 (by decide) rfl).mpr (by decide), ?_⟩
  exact (h.2.2.2.1 10000 ["d61"] [("d61", ⟨"inactive", some 6340⟩)]).1

/-! ### Tracking-store round-trip lemmas -/

/-- Auxiliary: looking a domain up in the loaded tracking dict finds the first
matching table row. -/
theorem lookup_load (d : String) :
    ∀ db : List DomainRow,
      List.lookup d (load_domain_tracking db) =
        (db.find? (fun r => d == r.domain)).map loadRecord := by
  intro db
  induction db with
  | nil => rfl
  | cons r rest ih =>
    unfold load_domain_tracking at ih ⊢
    simp only [List.map_cons, List.lookup, List.find?]
    cases h : d == r.domain with
    | true => simp [h]
    | false => simp [h, ih]

/-- Auxiliary: replacing every row of `r.domain` by `r` leaves lookups for a
different domain `d` unchanged. -/
theorem find?_map_replace_other (r : DomainRow) (d : String)
    (hd : (d == r.domain) = false) :
    ∀ db : List DomainRow,
      (db.map (fun q => if q.domain == r.domain then r else q)).find?
          (fun q => d == q.domain) =
        db.find? (fun q => d == q.domain) := by
  intro db
  induction db with
  | nil => rfl
  | cons q rest ih =>
    simp only [List.map_cons]
    by_cases hq : q.domain = r.domain
    · have hne : (d == q.domain) = false := by rw [hq]; exact hd
      rw [if_pos (by simp [hq])]
      simp only [List.find?, hd, hne]
      exact ih
    · rw [if_neg (by simp [hq])]
      simp only [List.find?]
      cases h2 : d == q.domain
      · exact ih
      · rfl

/-- Auxiliary: when some row of `r.domain` exists, replacing each of them by
`r` makes `r` the row found under `r.domain`. -/
theorem find?_map_replace_same (r : DomainRow) (d : String)
    (hd : (d == r.domain) = true) :
    ∀ db : List DomainRow, db.any (fun q => q.domain == r.domain) = true →
      (db.map (fun q => if q.domain == r.domain then r else q)).find?
          (fun q => d == q.domain) = some r := by
  intro db
  induction db with
  | nil => intro h; cases h
  | cons q rest ih =>
    intro hany
    simp only [List.map_cons]
    by_cases hq : q.domain = r.domain
    · rw [if_pos (by simp [hq])]
      simp only [List.find?, hd]
    · rw [if_neg (by simp [hq])]
      have hd' : d = r.domain := by simpa using hd
      have hne : (d == q.domain) = false := by
        simp only [beq_eq_false_iff_ne]
        rw [hd']
        exact fun he => hq he.symm
      simp only [List.find?, hne]
      refine ih ?_
      simpa [hq] using hany

/-- Auxiliary: when no row of `r.domain` exists, appending `r` makes it the
row found under `r.domain`. -/
theorem find?_append_row_same (r : DomainRow) (d : String)
    (hd : (d == r.domain) = true) :
    ∀ db : List DomainRow, db.any (fun q => q.domain == r.domain) = false →
      (db ++ [r]).find? (fun q => d == q.domain) = some r := by
  intro db
  induction db with
  | nil =>
    intro _
    rw [List.nil_append]
    simp only [List.find?, hd]
  | cons q rest ih =>
    intro hany
    simp only [List.any_cons, Bool.or_eq_false_iff] at hany
    have hd' : d = r.domain := by simpa using hd
    have hq' : q.domain ≠ r.domain := beq_eq_false_iff_ne.mp hany.1
    have hne : (d == q.domain) = false := by
      simp only [beq_eq_false_iff_ne]
      rw [hd']
      exact fun he => hq' he.symm
    rw [List.cons_append]
    simp only [List.find?, hne]
    exact ih hany.2

/-- Auxiliary: appending a row for a different domain leaves lookups for `d`
unchanged. -/
theorem find?_append_row_other (r : DomainRow) (d : String)
    (hd : (d == r.domain) = false) :
    ∀ db : List DomainRow,
      (db ++ [r]).find? (fun q => d == q.domain) =
        db.find? (fun q => d == q.domain) := by
  intro db
  induction db with
  | nil =>
    rw [List.nil_append]
    simp only [List.find?, hd]
  | cons q rest ih =>
    rw [List.cons_append]
    simp only [List.find?]
    cases h2 : d == q.domain
    · exact ih
    · rfl

/-- Auxiliary: upserting a row makes it the row found under its own domain. -/
theorem find?_upsert_same (r : DomainRow) (d : String) (hd : (d == r.domain) = true)
    (db : List DomainRow) :
    (upsertRow db r).find? (fun q => d == q.domain) = some r := by
  unfold upsertRow
  by_cases hany : (db.any fun q => q.domain == r.domain) = true
  · rw [if_pos hany]
    exact find?_map_replace_same r d hd db hany
  · rw [if_neg hany]
    exact find?_append_row_same r d hd db (by simpa using hany)

/-- Auxiliary: upserting a row for a different domain does not change what is
found under `d`. -/
theorem find?_upsert_other (r : DomainRow) (d : String)
    (hd : (d == r.domain) = false) (db : List DomainRow) :
    (upsertRow db r).find? (fun q => d == q.domain) =
      db.find? (fun q => d == q.domain) := by
  unfold upsertRow
  by_cases hany : (db.any fun q => q.domain == r.domain) = true
  · rw [if_pos hany]
    exact find?_map_replace_other r d hd db
  · rw [if_neg hany]
    exact find?_append_row_other r d hd db

/-- Auxiliary: saving entries for other domains does not change what is found
under `d`. -/
theorem find?_save_skip (d : String) (nowStr : String) :
    ∀ (tracking : List (String × Record)) (db : List DomainRow),
      (∀ p ∈ tracking, (d == p.1) = false) →
      (save_domain_tracking nowStr db tracking).find? (fun q => d == q.domain) =
        db.find? (fun q => d == q.domain) := by
  intro tracking
  induction tracking with
  | nil => intro db _; rfl
  | cons p rest ih =>
    intro db hall
    unfold save_domain_tracking at ih ⊢
    simp only [List.foldl_cons]
    rw [ih _ (fun q hq => hall q (List.mem_cons_of_mem p hq))]
    exact find?_upsert_other _ d (hall p (List.mem_cons_self p rest)) db

/-- Auxiliary: after saving a tracking dict with unique keys, the row found
under a tracked domain is exactly the row built from its entry. -/
theorem find?_save_mem (d : String) (data : Record) (nowStr : String) :
    ∀ (tracking : List (String × Record)) (db : List DomainRow),
      (tracking.map Prod.fst).Nodup →
      List.lookup d tracking = some data →
      (save_domain_tracking nowStr db tracking).find? (fun q => d == q.domain) =
        some (saveRow nowStr d data) := by
  intro tracking
  induction tracking with
  | nil => intro db _ hlk; cases hlk
  | cons p rest ih =>
    intro db hnd hlk
    simp only [List.map_cons, List.nodup_cons] at hnd
    unfold save_domain_tracking at ih ⊢
    simp only [List.foldl_cons]
    cases hk : d == p.1 with
    | true =>
      have hdp : d = p.1 := by simpa using hk
      have hdata : p.2 = data := by
        unfold List.lookup at hlk
        rw [hk] at hlk
        exact Option.some.inj hlk
      have hskip : ∀ q ∈ rest, (d == q.1) = false := by
        intro q hq
        simp only [beq_eq_false_iff_ne]
        rw [hdp]
        intro he
        exact hnd.1 (he ▸ List.mem_map_of_mem Prod.fst hq)
      calc (List.foldl (fun acc q => upsertRow acc (saveRow nowStr q.1 q.2))
              (upsertRow db (saveRow nowStr p.1 p.2)) rest).find?
              (fun q => d == q.domain)
        _ = (upsertRow db (saveRow nowStr p.1 p.2)).find? (fun q => d == q.domain) :=
          find?_save_skip d nowStr rest _ hskip
        _ = some (saveRow nowStr p.1 p.2) :=
          find?_upsert_same _ d (by exact hk) _
        _ = some (saveRow nowStr d data) := by rw [hdp, hdata]
    | false =>
      have hlk' : List.lookup d rest = some data := by
        unfold List.lookup at hlk
        rw [hk] at hlk
        exact hlk
      exact ih _ hnd.2 hlk'

/-- C8: extension fields beyond `status`/`timestamp` survive
`save_domain_tracking` followed by `load_domain_tracking` unchanged and in
the same order: loading after saving returns, for each tracked domain, a
record whose metadata key-value pairs equal the stored ones verbatim. -/
theorem save_load_preserves_metadata (nowStr : String) (db : List DomainRow)
    (tracking : List (String × Record)) (d : String) (data : Record)
    (hnd : (tracking.map Prod.fst).Nodup)
    (hlk : List.lookup d tracking = some data) :
    ∃ rec,
      List.lookup d (load_domain_tracking (save_domain_tracking nowStr db tracking)) =
        some rec ∧
      extFields rec = extFields data := by
  have hst : ∀ (s t : String) (m : Record),
      extFields ([("status", s), ("timestamp", t)] ++ m) = extFields m := by
    intro s t m
    rfl
  refine ⟨loadRecord (saveRow nowStr d data), ?_, ?_⟩
  · rw [lookup_load, find?_save_mem d data nowStr tracking db hnd hlk]
    rfl
  · unfold loadRecord saveRow
    by_cases hempty : extFields data = []
    · rw [if_pos hempty, hst, hempty]
      rfl
    · rw [if_neg hempty, hst]
      show extFields (extFields data) = extFields data
      unfold extFields
      rw [List.filter_filter]
      simp

/-- Witness for C8: the `owner` and `note` fields of a concrete record come
back in order from a save/load round-trip. -/
theorem save_load_preserves_metadata_witness :
    ∃ rec,
      List.lookup "example.com"
        (load_domain_tracking (save_domain_tracking "NOW" []
          [("example.com",
            [("status", "active"), ("timestamp", "T1"),
             ("owner", "alice"), ("note", "x")])])) = some rec ∧
      extFields rec = [("owner", "alice"), ("note", "x")] := by
  obtain ⟨rec, h1, h2⟩ := save_load_preserves_metadata "NOW" []
    [("example.com",
      [("status", "active"), ("timestamp", "T1"),
       ("owner", "alice"), ("note", "x")])]
    "example.com"
    [("status", "active"), ("timestamp", "T1"), ("owner", "alice"), ("note", "x")]
    (by decide) (by decide)
  exact ⟨rec, h1, h2.trans (by decide)⟩

end DnsSync
